import Mathlib

/-
Verification development for BM2Excel (src/bookmark2excel.py).

The extraction/transform core of the program is embedded shallowly:
Python strings become lists of characters, BeautifulSoup element trees
become an inductive type of nodes, the recursive extraction
process_bookmarks becomes a recursive function threading the
deduplication dictionary explicitly, and the cancellation flag becomes
a boolean parameter (the flag is never mutated while process_bookmarks
runs, the program being single-threaded).
-/

/-- Python strings are modelled as lists of characters. -/
abbrev Str := List Char

/-- Python's str.strip() with no arguments: drop leading and trailing
whitespace.  (Lean's Char.isWhitespace covers the space, tab, carriage
return and newline characters; Python strips a slightly larger Unicode
set, which no claim exercises.) -/
def pyStrip (s : Str) : Str :=
  ((s.dropWhile Char.isWhitespace).reverse.dropWhile Char.isWhitespace).reverse

/-- Python's str.lower(), modelled characterwise with Char.toLower
(the two agree on ASCII, which is all the claims exercise). -/
def pyLower (s : Str) : Str :=
  s.map Char.toLower

/-- Python's str.split(sep) for a one-character separator: cut at every
occurrence of the separator, keeping empty pieces, so that the empty
string splits into a single empty piece. -/
def pySplit (sep : Char) : Str → List Str
  | [] => [[]]
  | c :: rest =>
    if c = sep then [] :: pySplit sep rest
    else
      match pySplit sep rest with
      | [] => [[c]]
      | p :: ps => (c :: p) :: ps

/-- The source's folder-name escaping, line 306:
text.replace with a one-character pattern, the slash, and the
replacement being the triple underscore.  For a one-character pattern
Python's str.replace is exactly this characterwise expansion. -/
def escape : Str → Str
  | [] => []
  | c :: rest => (if c = '/' then ['_', '_', '_'] else [c]) ++ escape rest

/-- The source's level-value unescaping, line 351: str.replace with the
triple-underscore pattern and the slash replacement.  Python scans left
to right and replaces non-overlapping occurrences: at each position, if
the next three characters are underscores they are consumed and one
slash is emitted, otherwise one character is copied. -/
def unescape : Str → Str
  | [] => []
  | [c] => [c]
  | [c, c'] => [c, c']
  | c :: c' :: c'' :: rest =>
    if c = '_' ∧ c' = '_' ∧ c'' = '_' then '/' :: unescape rest
    else c :: unescape (c' :: c'' :: rest)

/-- Decimal digit run to a number; none when empty or non-digits occur. -/
def digitsVal (ds : Str) : Option Nat :=
  if ds ≠ [] ∧ ds.all Char.isDigit then
    some (ds.foldl (fun acc c => 10 * acc + (c.toNat - '0'.toNat)) 0)
  else none

/-- Python's int() applied to a string, as used at line 290: strip
whitespace, accept an optional sign followed by decimal digits, raise
ValueError (here: none) otherwise.  (Python additionally accepts
underscore digit separators, which no claim exercises.) -/
def pyParseInt (s : Str) : Option Int :=
  match pyStrip s with
  | '+' :: ds => (digitsVal ds).map (fun n => (n : Int))
  | '-' :: ds => (digitsVal ds).map (fun n => -(n : Int))
  | ds => (digitsVal ds).map (fun n => (n : Int))

/-- The date logic of process_bookmarks, lines 287-298: an empty
add_date attribute, an unparsable one, or a parsed timestamp that is
not positive all give the empty string; a positive timestamp is
formatted.  The formatter (datetime.fromtimestamp + strftime, a library
call depending on the host timezone) is a parameter fmt. -/
def dateStr (fmt : Int → Str) (date_added : Str) : Str :=
  if date_added ≠ [] then
    match pyParseInt date_added with
    | some timestamp => if timestamp > 0 then fmt timestamp else []
    | none => []
  else []

/-- A concrete stand-in formatter used to instantiate witnesses. -/
def epochFmt : Int → Str :=
  fun t => (toString t).data

/-- The parent-path extension of process_bookmarks, line 309: the
formatted string parent/name when the parent path is truthy
(non-empty), the bare name otherwise. -/
def joinPath (parent_folder folder_name : Str) : Str :=
  if parent_folder ≠ [] then parent_folder ++ '/' :: folder_name else folder_name

/-- The parsed HTML document: the element kinds the extractor
distinguishes.  An anchor carries its text and its href and add_date
attributes (BeautifulSoup's item.get with default yields the empty
string for an absent attribute, so absence is the empty string); an h3
carries its text; dl is the child container find_next_sibling looks
for; every other element kind only contributes its children to the
document order. -/
inductive Node where
  | a (text href addDate : Str)
  | h3 (text : Str)
  | dl (children : List Node)
  | other (children : List Node)

/-- Whether a node is a dl container. -/
def isDl : Node → Bool
  | .dl _ => true
  | _ => false

/-- item.find_next_sibling applied with the dl name, line 307: the
children of the first dl among the following siblings, none when no dl
follows. -/
def firstDlChildren : List Node → Option (List Node)
  | [] => none
  | .dl cs :: _ => some cs
  | _ :: rest => firstDlChildren rest

theorem firstDlChildren_sizeOf :
    ∀ l : List Node, sizeOf (firstDlChildren l) ≤ sizeOf l
  | [] => by simp [firstDlChildren]
  | .dl cs :: rest => by simp [firstDlChildren]; omega
  | .a t h d :: rest => by
      have := firstDlChildren_sizeOf rest
      simp [firstDlChildren]; omega
  | .h3 t :: rest => by
      have := firstDlChildren_sizeOf rest
      simp [firstDlChildren]; omega
  | .other cs :: rest => by
      have := firstDlChildren_sizeOf rest
      simp [firstDlChildren]; omega

/-- What process_bookmarks consumes: the elements returned by
find_all with the a and h3 names, each h3 bundled with the result of
its own find_next_sibling lookup (none when no dl sibling follows),
that dl's contents themselves flattened the same way, since the
recursive call at line 310 passes dl_tag.find_all with the same
names. -/
inductive Elem where
  | a (text href addDate : Str)
  | h3 (text : Str) (dlTag : Option (List Elem))

mutual

/-- soup.find_all with the a and h3 names (line 459 for the whole
document, line 310 for a dl's contents): all matching elements in
document order, descending into every container, with each h3's
sibling-dl lookup (line 307) resolved against its true siblings. -/
def view : List Node → List Elem
  | [] => []
  | .a t h d :: rest => .a t h d :: view rest
  | .h3 t :: rest => .h3 t (viewDl (firstDlChildren rest)) :: view rest
  | .dl cs :: rest => view cs ++ view rest
  | .other cs :: rest => view cs ++ view rest
termination_by l => sizeOf l
decreasing_by
  all_goals simp
  all_goals try omega
  · have := firstDlChildren_sizeOf rest
    omega

/-- The dl's contents, flattened like view, when a dl sibling exists. -/
def viewDl : Option (List Node) → Option (List Elem)
  | none => none
  | some cs => some (view cs)
termination_by o => sizeOf o
decreasing_by
  simp

end

/-- One extracted bookmark: the tuple built at lines 299-304. -/
structure Rec where
  bookmark : Str
  url : Str
  folder : Str
  date_added : Str
deriving DecidableEq

/-- The tuple stored for a link, lines 299-304: trimmed text, href,
current folder path, formatted date. -/
def mkRec (fmt : Int → Str) (text href addDate parent_folder : Str) : Rec :=
  { bookmark := pyStrip text
    url := href
    folder := parent_folder
    date_added := dateStr fmt addDate }

/-- Python dict key membership (href not in bookmarks, line 286); the
dict is modelled as an insertion-ordered association list. -/
def keyMem (k : Str) (m : List (Str × Rec)) : Bool :=
  m.any (fun p => decide (p.1 = k))

/-- process_bookmarks, lines 279-311, over the flattened element view.
The cancellation flag is checked at the top of the loop body for every
element; a raised flag becomes the error outcome (CancelException).
An anchor with a truthy href not yet in the dict is inserted (Python
dicts keep insertion order, hence the append); an h3 whose dl lookup
succeeded triggers the recursive call with the extended parent path;
otherwise the loop just continues. -/
def process_bookmarks (fmt : Int → Str) (cancelled : Bool) :
    List Elem → Str → List (Str × Rec) → Except Unit (List (Str × Rec))
  | [], _, bookmarks => .ok bookmarks
  | .a text href addDate :: rest, parent_folder, bookmarks =>
    if cancelled then .error () else
    process_bookmarks fmt cancelled rest parent_folder
      (if href ≠ [] ∧ keyMem href bookmarks = false then
        bookmarks ++ [(href, mkRec fmt text href addDate parent_folder)]
      else bookmarks)
  | .h3 text (some inner) :: rest, parent_folder, bookmarks =>
    if cancelled then .error () else
    match process_bookmarks fmt cancelled inner
        (joinPath parent_folder (escape (pyStrip text))) bookmarks with
    | .ok bookmarks' => process_bookmarks fmt cancelled rest parent_folder bookmarks'
    | .error e => .error e
  | .h3 _ none :: rest, parent_folder, bookmarks =>
    if cancelled then .error () else
    process_bookmarks fmt cancelled rest parent_folder bookmarks
termination_by es => sizeOf es
decreasing_by
  all_goals simp
  all_goals omega

/-- The whole extraction as run performs it at line 459: the list of
dict values after processing the document's flattened element view
with the empty starting path and an empty dict. -/
def extract (fmt : Int → Str) (cancelled : Bool) (doc : List Node) :
    Except Unit (List Rec) :=
  Except.map (List.map Prod.snd) (process_bookmarks fmt cancelled (view doc) [] [])

/-- The candidate records of the traversal in visitation order: one
record per visit of an anchor with a truthy href, under the folder
path current at that visit, duplicates included.  This is the
document visitation order the dedup claims speak about. -/
def linkSeq (fmt : Int → Str) : List Elem → Str → List Rec
  | [], _ => []
  | .a text href addDate :: rest, parent_folder =>
    (if href ≠ [] then [mkRec fmt text href addDate parent_folder] else [])
      ++ linkSeq fmt rest parent_folder
  | .h3 text (some inner) :: rest, parent_folder =>
    linkSeq fmt inner (joinPath parent_folder (escape (pyStrip text)))
      ++ linkSeq fmt rest parent_folder
  | .h3 _ none :: rest, parent_folder => linkSeq fmt rest parent_folder
termination_by es _ => sizeOf es
decreasing_by
  all_goals simp
  all_goals omega

/-- First-occurrence-wins insertion into the ordered dict. -/
def insRec (m : List (Str × Rec)) (r : Rec) : List (Str × Rec) :=
  if keyMem r.url m = false then m ++ [(r.url, r)] else m

/-- With the cancellation flag down, the traversal never fails and its
dict is the first-occurrence-wins fold of the candidate records in
visitation order. -/
theorem process_bookmarks_no_cancel (fmt : Int → Str) :
    ∀ (es : List Elem) (parent_folder : Str) (m : List (Str × Rec)),
      process_bookmarks fmt false es parent_folder m
        = .ok ((linkSeq fmt es parent_folder).foldl insRec m)
  | [], p, m => by simp [process_bookmarks, linkSeq]
  | .a text href addDate :: rest, p, m => by
      have ih := process_bookmarks_no_cancel fmt rest p
      simp only [process_bookmarks, linkSeq, Bool.false_eq_true, if_false]
      rw [ih, List.foldl_append]
      by_cases hh : href = []
      · simp [hh]
      · simp [hh, insRec, mkRec]
  | .h3 text (some inner) :: rest, p, m => by
      have ih1 := process_bookmarks_no_cancel fmt inner
        (joinPath p (escape (pyStrip text)))
      have ih2 := process_bookmarks_no_cancel fmt rest p
      simp only [process_bookmarks, linkSeq, Bool.false_eq_true, if_false]
      rw [ih1]
      simp only []
      rw [ih2, List.foldl_append]
  | .h3 text none :: rest, p, m => by
      have ih := process_bookmarks_no_cancel fmt rest p
      simp only [process_bookmarks, linkSeq, Bool.false_eq_true, if_false]
      exact ih m
termination_by es _ _ => sizeOf es
decreasing_by
  all_goals simp
  all_goals omega

theorem keyMem_append (k : Str) (m : List (Str × Rec)) (p : Str × Rec) :
    keyMem k (m ++ [p]) = (keyMem k m || decide (p.1 = k)) := by
  simp [keyMem]

/-- Filtering the dict values by one url after folding in a candidate
sequence: what was already there for that url, then (when the url was
not yet a key) the first candidate carrying it. -/
theorem foldl_insRec_filter (k : Str) :
    ∀ (seq : List Rec) (m : List (Str × Rec)),
      (((seq.foldl insRec m).map Prod.snd).filter (fun r => decide (r.url = k)))
        = ((m.map Prod.snd).filter (fun r => decide (r.url = k)))
          ++ (if keyMem k m then []
              else ((seq.filter (fun r => decide (r.url = k))).take 1)) := by
  intro seq
  induction seq with
  | nil =>
    intro m
    simp
  | cons r tl ih =>
    intro m
    simp only [List.foldl_cons, List.filter_cons]
    rw [ih (insRec m r)]
    by_cases hk : keyMem r.url m
    · have hins : insRec m r = m := by simp [insRec, hk]
      rw [hins]
      by_cases hu : r.url = k
      · have : keyMem k m = true := hu ▸ hk
        simp [this, hu]
      · simp [hu]
    · have hins : insRec m r = m ++ [(r.url, r)] := by
        simp [insRec, eq_false_of_ne_true hk]
      rw [hins]
      by_cases hu : r.url = k
      · have hkm : keyMem k m = false := by
          rw [← hu]
          exact eq_false_of_ne_true hk
        simp [keyMem_append, hkm, hu]
      · simp [keyMem_append, hu]

theorem escape_no_slash {s : Str} (h : '/' ∉ s) : escape s = s := by
  induction s with
  | nil => simp [escape]
  | cons c rest ih =>
    simp only [List.mem_cons, not_or] at h
    have hc : c ≠ '/' := fun hcc => h.1 hcc.symm
    simp [escape, hc, ih h.2]

theorem slash_not_mem_escape (s : Str) : '/' ∉ escape s := by
  induction s with
  | nil => simp [escape]
  | cons c rest ih =>
    by_cases hc : c = '/'
    · simp [escape, hc, ih]
    · simp [escape, hc, ih]
      exact fun h => hc h.symm

theorem pySplit_no_sep {sep : Char} {s : Str} (h : sep ∉ s) :
    pySplit sep s = [s] := by
  induction s with
  | nil => simp [pySplit]
  | cons c rest ih =>
    simp only [List.mem_cons, not_or] at h
    have hne : ¬ c = sep := fun hc => h.1 hc.symm
    simp [pySplit, hne, ih h.2]

theorem unescape_cons_of_ne {c : Char} (l : Str) (h : c ≠ '_') :
    unescape (c :: l) = c :: unescape l := by
  match l with
  | [] => simp [unescape]
  | [c'] => simp [unescape]
  | c' :: c'' :: rest => simp [unescape, h]

theorem unescape_triple (l : Str) :
    unescape ('_' :: '_' :: '_' :: l) = '/' :: unescape l := by
  simp [unescape]

/-- The escape/unescape pair round-trips on strings free of the
underscore character. -/
theorem unescape_escape {s : Str} (h : '_' ∉ s) :
    unescape (escape s) = s := by
  induction s with
  | nil => simp [escape, unescape]
  | cons c rest ih =>
    simp only [List.mem_cons, not_or] at h
    have hcu : c ≠ '_' := fun hc => h.1 hc.symm
    by_cases hc : c = '/'
    · subst hc
      rw [escape, if_pos rfl]
      simp only [List.cons_append, List.nil_append]
      rw [unescape_triple, ih h.2]
    · rw [escape, if_neg hc]
      simp only [List.singleton_append]
      rw [unescape_cons_of_ne _ hcu, ih h.2]

/-- The select-all sentinel folder name, line 40. -/
def DEFAULT_FOLDER : Str :=
  ['A', 'l', 'l', ' ', 'B', 'o', 'o', 'k', 'm', 'a', 'r', 'k', 's']

/-- The maximum number of level columns, line 41. -/
def MAX_FOLDER_LEVELS : Nat := 10

/-- The per-record predicate of filter_bookmarks, lines 330-333: a
falsy (empty) folder path never matches; otherwise some whole segment
of the slash-split path must, lowercased, lie in the selected set. -/
def is_in_selected (selected_set : List Str) (folder_path : Str) : Bool :=
  if folder_path = [] then false
  else (pySplit '/' folder_path).any (fun part => decide (pyLower part ∈ selected_set))

/-- filter_bookmarks, lines 313-334: when the sentinel is among the
whitespace-trimmed selection entries the record set is returned
unchanged; otherwise the records are filtered by is_in_selected
against the trimmed-and-lowercased selection entries.  (The Python set
of those entries is modelled as the list itself: only membership is
consumed.) -/
def filter_bookmarks (records : List Rec) (selected_folders : List Str) : List Rec :=
  if DEFAULT_FOLDER ∈ selected_folders.map pyStrip then records
  else
    records.filter (fun r =>
      is_in_selected (selected_folders.map (fun s => pyLower (pyStrip s))) r.folder)

/-- The slash-split segments of one record's folder path, line 348. -/
def segsOf (r : Rec) : List Str :=
  pySplit '/' r.folder

/-- The width of the expanded split column block, line 348: pandas
str.split with expand gives one column per segment up to the largest
segment count over all records. -/
def maxSegs (records : List Rec) : Nat :=
  (records.map (fun r => (segsOf r).length)).foldr max 0

/-- The number of emitted level columns, line 349. -/
def numColumns (records : List Rec) : Nat :=
  min (maxSegs records) MAX_FOLDER_LEVELS

/-- split_folder_levels, lines 336-352: each record gains the level
columns 1..numColumns, column i holding the record's i-th path segment
with the triple underscore restored to a slash (line 351), or an empty
cell (none) when the record has fewer segments than the column
block. -/
def split_folder_levels (records : List Rec) : List (Rec × List (Option Str)) :=
  records.map (fun r =>
    (r, (List.range (numColumns records)).map (fun i => ((segsOf r).get? i).map unescape)))

/-- C1.  For every document and every url, the records the extraction
produces for that url are exactly the first candidate carrying it in
document visitation order: at most one record per url, the first
occurrence's title, folder path and date win, later duplicates are
dropped. -/
theorem c1_dedup_first_wins (fmt : Int → Str) (doc : List Node) (k : Str)
    (rs : List Rec) (h : extract fmt false doc = .ok rs) :
    rs.filter (fun r => decide (r.url = k))
      = ((linkSeq fmt (view doc) []).filter (fun r => decide (r.url = k))).take 1 := by
  rw [extract, process_bookmarks_no_cancel] at h
  simp only [Except.map, Except.ok.injEq] at h
  subst h
  have := foldl_insRec_filter k (linkSeq fmt (view doc) []) []
  simpa [keyMem] using this


/-- C1 witness: a document with two anchors sharing one href; exactly
the first one's record survives for that url. -/
theorem c1_dedup_first_wins_witness :
    extract epochFmt false
        [Node.a ['t'] ['u'] [], Node.a ['s'] ['u'] [], Node.a ['q'] ['v'] []]
      = .ok [mkRec epochFmt ['t'] ['u'] [] [], mkRec epochFmt ['q'] ['v'] [] []]
    ∧ [mkRec epochFmt ['t'] ['u'] [] [], mkRec epochFmt ['q'] ['v'] [] []].filter
          (fun r => decide (r.url = ['u']))
        = ((linkSeq epochFmt
              (view [Node.a ['t'] ['u'] [], Node.a ['s'] ['u'] [], Node.a ['q'] ['v'] []])
              []).filter (fun r => decide (r.url = ['u']))).take 1 := by
  have h : extract epochFmt false
      [Node.a ['t'] ['u'] [], Node.a ['s'] ['u'] [], Node.a ['q'] ['v'] []]
    = .ok [mkRec epochFmt ['t'] ['u'] [] [], mkRec epochFmt ['q'] ['v'] [] []] := by
    rw [extract, process_bookmarks_no_cancel]
    simp [view, linkSeq, insRec, keyMem, mkRec, Except.map]
  exact ⟨h, c1_dedup_first_wins epochFmt _ ['u'] _ h⟩

/-- C2 counterexample.  The folder name underscore-slash contains a
slash, escaping gives four underscores, and the level value after
splitting and unescaping is slash-underscore: the round-trip is not
lossless for every name containing a slash. -/
theorem c2_roundtrip_counterexample :
    '/' ∈ ['_', '/']
    ∧ split_folder_levels [⟨[], [], escape ['_', '/'], []⟩]
        = [(⟨[], [], escape ['_', '/'], []⟩, [some ['/', '_']])]
    ∧ ['/', '_'] ≠ ['_', '/'] := by
  decide

/-- C2 amended.  For every folder name containing a slash and free of
the underscore character, the escaped name survives path splitting in
one piece and unescaping restores the original name exactly. -/
theorem c2_roundtrip_amended (name : Str) (_h1 : '/' ∈ name) (h2 : '_' ∉ name) :
    pySplit '/' (escape name) = [escape name] ∧ unescape (escape name) = name :=
  ⟨pySplit_no_sep (slash_not_mem_escape name), unescape_escape h2⟩

/-- C2 witness for the amended round-trip at the name a-slash-b. -/
theorem c2_roundtrip_amended_witness :
    '/' ∈ ['a', '/', 'b'] ∧ '_' ∉ ['a', '/', 'b']
    ∧ (pySplit '/' (escape ['a', '/', 'b']) = [escape ['a', '/', 'b']]
       ∧ unescape (escape ['a', '/', 'b']) = ['a', '/', 'b']) :=
  ⟨by decide, by decide, c2_roundtrip_amended _ (by decide) (by decide)⟩

/-- C4.  When the sentinel folder name is among the selected folder
names, filtering returns the record set unchanged, whatever else the
selection contains. -/
theorem c4_sentinel_returns_all (records : List Rec) (selected_folders : List Str)
    (h : DEFAULT_FOLDER ∈ selected_folders) :
    filter_bookmarks records selected_folders = records := by
  have hm : DEFAULT_FOLDER ∈ selected_folders.map pyStrip :=
    List.mem_map.mpr ⟨DEFAULT_FOLDER, h, by decide⟩
  simp [filter_bookmarks, hm]

/-- C4 witness: the sentinel next to an ordinary entry, one record. -/
theorem c4_sentinel_returns_all_witness :
    DEFAULT_FOLDER ∈ [['W', 'o', 'r', 'k'], DEFAULT_FOLDER]
    ∧ filter_bookmarks [⟨['b'], ['u'], [], []⟩] [['W', 'o', 'r', 'k'], DEFAULT_FOLDER]
        = [⟨['b'], ['u'], [], []⟩] :=
  ⟨by decide, c4_sentinel_returns_all _ _ (by decide)⟩

/-- C9.  Filtering twice with one and the same selection list gives
the same records as filtering once. -/
theorem c9_filter_idempotent (records : List Rec) (selected_folders : List Str) :
    filter_bookmarks (filter_bookmarks records selected_folders) selected_folders
      = filter_bookmarks records selected_folders := by
  by_cases hs : DEFAULT_FOLDER ∈ selected_folders.map pyStrip
  · simp [filter_bookmarks, hs]
  · simp [filter_bookmarks, hs, List.filter_filter]

/-- C7.  Without the sentinel, a record survives the filter exactly
when its folder path is non-empty and some whole slash-separated
segment of it equals, case-insensitively, one of the
(whitespace-trimmed) selected names; an empty folder path never
survives. -/
theorem c7_whole_segment_match (records : List Rec) (selected_folders : List Str)
    (r : Rec) (h : DEFAULT_FOLDER ∉ selected_folders.map pyStrip) :
    r ∈ filter_bookmarks records selected_folders ↔
      r ∈ records ∧ r.folder ≠ [] ∧
        ∃ part ∈ pySplit '/' r.folder, ∃ name ∈ selected_folders,
          pyLower part = pyLower (pyStrip name) := by
  rw [filter_bookmarks, if_neg h, List.mem_filter]
  by_cases hf : r.folder = []
  · simp [is_in_selected, hf]
  · constructor
    · rintro ⟨hr, hsel⟩
      rw [is_in_selected, if_neg hf, List.any_eq_true] at hsel
      obtain ⟨part, hpart, hmem⟩ := hsel
      obtain ⟨name, hname, heq⟩ := List.mem_map.mp (of_decide_eq_true hmem)
      exact ⟨hr, hf, part, hpart, name, hname, heq.symm⟩
    · rintro ⟨hr, -, part, hpart, name, hname, heq⟩
      refine ⟨hr, ?_⟩
      rw [is_in_selected, if_neg hf, List.any_eq_true]
      refine ⟨part, hpart, decide_eq_true ?_⟩
      exact List.mem_map.mpr ⟨name, hname, heq.symm⟩

/-- C7 witness: selection work (lower case), record folder
Work/Sub; the first segment matches case-insensitively and the
record survives. -/
theorem c7_whole_segment_match_witness :
    DEFAULT_FOLDER ∉ [['w', 'o', 'r', 'k']].map pyStrip
    ∧ (⟨['b'], ['u'], ['W', 'o', 'r', 'k', '/', 'S'], []⟩ ∈
        filter_bookmarks [⟨['b'], ['u'], ['W', 'o', 'r', 'k', '/', 'S'], []⟩]
          [['w', 'o', 'r', 'k']] ↔
        ⟨['b'], ['u'], ['W', 'o', 'r', 'k', '/', 'S'], []⟩ ∈
            [(⟨['b'], ['u'], ['W', 'o', 'r', 'k', '/', 'S'], []⟩ : Rec)]
          ∧ (['W', 'o', 'r', 'k', '/', 'S'] : Str) ≠ []
          ∧ ∃ part ∈ pySplit '/' ['W', 'o', 'r', 'k', '/', 'S'],
              ∃ name ∈ [['w', 'o', 'r', 'k']],
                pyLower part = pyLower (pyStrip name)) :=
  ⟨by decide, c7_whole_segment_match _ _ _ (by decide)⟩

/-- C10.  The sentinel is recognised case-sensitively: the selection
list holding only the lower-cased sentinel text does not trigger
select-all; instead that entry matches folders as an ordinary name,
case-insensitively, so a record whose folder is the upper-cased text
survives while another record is dropped. -/
theorem c10_sentinel_case_sensitivity :
    DEFAULT_FOLDER ∉
        [['a', 'l', 'l', ' ', 'b', 'o', 'o', 'k', 'm', 'a', 'r', 'k', 's']].map pyStrip
    ∧ filter_bookmarks
        [⟨['b'], ['u'], ['A', 'L', 'L', ' ', 'B', 'O', 'O', 'K', 'M', 'A', 'R', 'K', 'S'], []⟩,
         ⟨['c'], ['v'], ['W', 'o', 'r', 'k'], []⟩]
        [['a', 'l', 'l', ' ', 'b', 'o', 'o', 'k', 'm', 'a', 'r', 'k', 's']]
      = [⟨['b'], ['u'], ['A', 'L', 'L', ' ', 'B', 'O', 'O', 'K', 'M', 'A', 'R', 'K', 'S'], []⟩] := by
  decide

/-- C6.  Every record's emitted level block has exactly
min(largest segment count, MAX_FOLDER_LEVELS) columns — never more
than MAX_FOLDER_LEVELS — and the columns beyond the record's own
segment count are empty cells, not errors. -/
theorem c6_level_column_bound (records : List Rec) (r : Rec)
    (levels : List (Option Str)) (h : (r, levels) ∈ split_folder_levels records) :
    levels.length = min (maxSegs records) MAX_FOLDER_LEVELS
    ∧ levels.length ≤ MAX_FOLDER_LEVELS
    ∧ ∀ i (hi : i < levels.length), (segsOf r).length ≤ i →
        levels.get ⟨i, hi⟩ = none := by
  obtain ⟨a, ha, heq⟩ := List.mem_map.mp h
  rw [Prod.mk.injEq] at heq
  obtain ⟨rfl, rfl⟩ := heq
  refine ⟨by simp [numColumns], by simp [numColumns], ?_⟩
  intro i hi hle
  simp only [List.get_eq_getElem, List.getElem_map, List.getElem_range]
  rw [List.get?_eq_none.mpr hle]
  rfl

/-- C6 witness: two records, one twelve levels deep and one flat; the
flat record gets the capped ten columns, the trailing ones empty. -/
theorem c6_level_column_bound_witness :
    ((⟨['c'], ['v'], ['W'], []⟩ : Rec),
        ([some ['W'], none, none, none, none, none, none, none, none, none] :
          List (Option Str))) ∈
      split_folder_levels
        [⟨['b'], ['u'],
          ['a', '/', 'b', '/', 'c', '/', 'd', '/', 'e', '/', 'f', '/', 'g', '/',
           'h', '/', 'i', '/', 'j', '/', 'k', '/', 'l'], []⟩,
         ⟨['c'], ['v'], ['W'], []⟩]
    ∧ ([some ['W'], none, none, none, none, none, none, none, none, none] :
          List (Option Str)).length
        = min
            (maxSegs
              [⟨['b'], ['u'],
                ['a', '/', 'b', '/', 'c', '/', 'd', '/', 'e', '/', 'f', '/', 'g', '/',
                 'h', '/', 'i', '/', 'j', '/', 'k', '/', 'l'], []⟩,
               ⟨['c'], ['v'], ['W'], []⟩])
            MAX_FOLDER_LEVELS := by
  have h : ((⟨['c'], ['v'], ['W'], []⟩ : Rec),
      ([some ['W'], none, none, none, none, none, none, none, none, none] :
        List (Option Str))) ∈
      split_folder_levels
        [⟨['b'], ['u'],
          ['a', '/', 'b', '/', 'c', '/', 'd', '/', 'e', '/', 'f', '/', 'g', '/',
           'h', '/', 'i', '/', 'j', '/', 'k', '/', 'l'], []⟩,
         ⟨['c'], ['v'], ['W'], []⟩] := by decide
  exact ⟨h, (c6_level_column_bound _ _ _ h).1⟩

/-- C8.  The extracted date comes from parsing the optional add_date
attribute as an epoch second count: absence (the empty attribute), an
unparsable value, and a non-positive timestamp all give the empty
date; only a positive timestamp is formatted.  No case is an error or
a sentinel date. -/
theorem c8_date_defaulting (fmt : Int → Str) (date_added : Str) :
    (date_added = [] → dateStr fmt date_added = [])
    ∧ (pyParseInt date_added = none → dateStr fmt date_added = [])
    ∧ (∀ t : Int, pyParseInt date_added = some t → t ≤ 0 →
        dateStr fmt date_added = [])
    ∧ (∀ t : Int, pyParseInt date_added = some t → 0 < t →
        dateStr fmt date_added = fmt t) := by
  refine ⟨?_, ?_, ?_, ?_⟩
  · intro h
    simp [dateStr, h]
  · intro h
    by_cases hd : date_added = [] <;> simp [dateStr, hd, h]
  · intro t ht hle
    by_cases hd : date_added = []
    · simp [dateStr, hd]
    · simp only [dateStr, if_pos hd, ht]
      rw [if_neg (by omega)]
  · intro t ht hpos
    have hd : date_added ≠ [] := by
      rintro rfl
      simp [pyParseInt, pyStrip, digitsVal] at ht
    simp only [dateStr, if_pos hd, ht]
    rw [if_pos hpos]

/-- C8 witness: the attribute value zero parses but is not positive,
so the date is empty. -/
theorem c8_date_defaulting_witness :
    dateStr epochFmt ['0'] = [] :=
  (c8_date_defaulting epochFmt ['0']).2.2.1 0 (by decide) (by decide)

/-- C5 counterexample.  With the cancellation flag raised but no
element to visit, the loop body never runs and the extraction returns
an empty successful result, not the cancelled outcome: here a
non-empty document with no anchor or folder-header at all. -/
theorem c5_cancel_counterexample :
    extract epochFmt true [Node.other []] = .ok [] := by
  simp [extract, view, process_bookmarks, Except.map]

/-- C5 amended.  With the cancellation flag raised and at least one
element to visit, the traversal stops at the very first element with
the cancelled outcome (the error carries no records, so zero records
are produced whatever was visited before). -/
theorem c5_cancel_aborts (fmt : Int → Str) (es : List Elem) (parent_folder : Str)
    (m : List (Str × Rec)) (h : es ≠ []) :
    process_bookmarks fmt true es parent_folder m = .error () := by
  match es with
  | [] => exact absurd rfl h
  | .a text href addDate :: rest => simp [process_bookmarks]
  | .h3 text (some inner) :: rest => simp [process_bookmarks]
  | .h3 text none :: rest => simp [process_bookmarks]

/-- C5 witness: one pending anchor, flag raised, cancelled outcome. -/
theorem c5_cancel_aborts_witness :
    process_bookmarks epochFmt true [Elem.a ['t'] ['u'] []] [] [] = .error () :=
  c5_cancel_aborts epochFmt _ _ _ (by simp)

/-- C3 counterexample.  The sibling directly after the folder header
is not a container, yet the extraction still recurses into the later
dl: the link inside it gets the header's name as its folder path
instead of the header contributing no records. -/
theorem c3_immediate_sibling_counterexample :
    isDl (Node.other []) = false
    ∧ extract epochFmt false [Node.h3 ['B'], Node.other [], Node.dl [Node.a ['L'] ['u'] []]]
        = .ok [mkRec epochFmt ['L'] ['u'] [] ['B']]
    ∧ (mkRec epochFmt ['L'] ['u'] [] ['B']).folder = ['B'] := by
  have hB : escape (pyStrip ['B']) = ['B'] := by decide
  refine ⟨rfl, ?_, rfl⟩
  rw [extract, process_bookmarks_no_cancel]
  simp [view, viewDl, firstDlChildren, linkSeq, joinPath, insRec, keyMem,
    mkRec, hB, Except.map]

/-- C3 amended.  A folder header binds the first container among its
following siblings, skipping intervening non-container siblings: in a
document nesting link under folder A under root folder B (a
non-container sibling standing between each header and its container),
the link's one record carries the folder path B/A, built by extending
the parent path with a slash (or by the bare name at the root); and a
header with no following container at all contributes nothing while
traversal continues with its siblings. -/
theorem c3_first_following_container (fmt : Int → Str)
    (nameB nameA text href addDate : Str)
    (hBs : pyStrip nameB = nameB) (hAs : pyStrip nameA = nameA)
    (hBsl : '/' ∉ nameB) (hAsl : '/' ∉ nameA)
    (hBne : nameB ≠ []) (hh : href ≠ []) :
    extract fmt false
        [Node.h3 nameB, Node.other [],
         Node.dl [Node.h3 nameA, Node.other [], Node.dl [Node.a text href addDate]]]
      = .ok [mkRec fmt text href addDate (nameB ++ '/' :: nameA)]
    ∧ ∀ (name : Str) (rest : List Node), firstDlChildren rest = none →
        extract fmt false (Node.h3 name :: rest) = extract fmt false rest := by
  constructor
  · have hBesc : escape (pyStrip nameB) = nameB := by
      rw [hBs]; exact escape_no_slash hBsl
    have hAesc : escape (pyStrip nameA) = nameA := by
      rw [hAs]; exact escape_no_slash hAsl
    rw [extract]
    simp only [view, viewDl, firstDlChildren]
    rw [process_bookmarks_no_cancel]
    simp [linkSeq, joinPath, insRec, keyMem, mkRec, hBesc, hAesc, hh, hBne,
      Except.map]
  · intro name rest hnone
    rw [extract, extract]
    have hv : view (Node.h3 name :: rest) = Elem.h3 name none :: view rest := by
      simp only [view, hnone, viewDl]
    rw [hv]
    have hp : ∀ es m p, process_bookmarks fmt false (Elem.h3 name none :: es) p m
        = process_bookmarks fmt false es p m := by
      intro es m p
      simp [process_bookmarks]
    rw [hp]

/-- C3 witness: the B/A nesting at concrete names. -/
theorem c3_first_following_container_witness :
    extract epochFmt false
        [Node.h3 ['B'], Node.other [],
         Node.dl [Node.h3 ['A'], Node.other [], Node.dl [Node.a ['t'] ['u'] []]]]
      = .ok [mkRec epochFmt ['t'] ['u'] [] ['B', '/', 'A']] :=
  (c3_first_following_container epochFmt ['B'] ['A'] ['t'] ['u'] []
    (by decide) (by decide) (by decide) (by decide) (by decide) (by decide)).1
